import Mathlib

/-!
Verification of the process/artifact lifecycle layer of the youtube-downloader
repository, as a shallow embedding in Lean 4.

Sources embedded here:
* `src/src/utils/speedParsing.ts`  (`parseSpeed`)
* `src/electron/services/ytdlp.service.ts`  (class `Downloader`: `download`,
  `pause`, `resume`, `cancel`, `parseBytes`)
* the `BinaryManager` service (`checkBinary`, `checkBinaryStatus`,
  `downloadFile`, `downloadBinary`, `downloadAllBinaries`,
  `downloadWhisperModel`, `WHISPER_MODEL_URLS`)
* the `Transcriber` service (`transcribe`, `cancel`, `cleanupTempFile`,
  `parseProgress`, `formatDuration`)

Modelling conventions:
* JavaScript strings are `List Char`; JavaScript numbers are `ℚ` (all the
  arithmetic the claims exercise is exact in IEEE doubles for the values of
  interest, and `ℚ` gives the exact semantics the spec describes); the IEEE
  `NaN` value produced by `parseFloat` on a degenerate numeral is modelled as
  `none : Option ℚ`.
* Filesystem effects are modelled by explicit record states (which files
  exist, with which permission mode / byte size).
* The single-threaded JavaScript event loop is modelled, where concurrency
  matters, by an explicit interleaving machine whose atomic steps are the
  code regions between `await` points.
-/

/- ===================================================================
   Shared JavaScript-style character/string helpers
   =================================================================== -/

/-- The whitespace class used by JavaScript's `String.trim` and the regex
class `\s`, restricted to the ASCII range (all inputs of interest are
ASCII). -/
def jsIsSpace (c : Char) : Bool :=
  c = ' ' || c = '\t' || c = '\n' || c = '\r' || c = '\x0b' || c = '\x0c'

/-- JavaScript `String.prototype.trim`: strip leading and trailing
whitespace. -/
def jsTrim (cs : List Char) : List Char :=
  ((cs.dropWhile jsIsSpace).reverse.dropWhile jsIsSpace).reverse

/-- Value of a (non-empty) list of decimal digit characters. -/
def digitsToNat (cs : List Char) : ℕ :=
  cs.foldl (fun n c => 10 * n + (c.toNat - 48)) 0

/-- The character class `[\d.]` of the numeral groups in `parseSpeed` and
`parseBytes`. -/
def digitOrDot (c : Char) : Bool :=
  c.isDigit || c = '.'

/-- JavaScript `parseFloat`, restricted to the strings it receives in this
code base: non-empty strings over digits and `'.'` (the capture of the regex
group `([\d.]+)`).  `parseFloat` reads the longest prefix that is a decimal
literal; if there is none (the string is `"."`, `".."`, `"..5"`, ...) the
result is `NaN`, modelled as `none`. -/
def jsParseFloat (cs : List Char) : Option ℚ :=
  match cs with
  | [] => none
  | c :: rest =>
    if c.isDigit then
      let intPart := cs.takeWhile Char.isDigit
      let r := cs.dropWhile Char.isDigit
      match r with
      | '.' :: r2 =>
        let frac := r2.takeWhile Char.isDigit
        some ((digitsToNat intPart : ℚ) + (digitsToNat frac : ℚ) / (10 : ℚ) ^ frac.length)
      | _ => some ((digitsToNat intPart : ℚ))
    else if c = '.' then
      match rest with
      | d :: _ =>
        if d.isDigit then
          let frac := rest.takeWhile Char.isDigit
          some ((digitsToNat frac : ℚ) / (10 : ℚ) ^ frac.length)
        else none
      | [] => none
    else none

/-- JavaScript `Math.round`: round half toward positive infinity. -/
def jsRound (q : ℚ) : ℤ :=
  (q + 1/2).floor

/- ===================================================================
   src/src/utils/speedParsing.ts — parseSpeed
   =================================================================== -/

namespace SpeedParsing

/-- The anchored remainder `(K|M|G)?(I)?B\/S$` of the `parseSpeed` regex,
applied after the numeral and the `\s*` gap have been consumed.  The regex
language of this remainder is exactly the eight listed strings; the result
is (captured unit-prefix group, whether the `I` group matched, i.e. a binary
unit). -/
def matchSpeedTail (cs : List Char) : Option (Option Char × Bool) :=
  if cs = ['B', '/', 'S'] then some (none, false)
  else if cs = ['I', 'B', '/', 'S'] then some (none, true)
  else if cs = ['K', 'B', '/', 'S'] then some (some 'K', false)
  else if cs = ['K', 'I', 'B', '/', 'S'] then some (some 'K', true)
  else if cs = ['M', 'B', '/', 'S'] then some (some 'M', false)
  else if cs = ['M', 'I', 'B', '/', 'S'] then some (some 'M', true)
  else if cs = ['G', 'B', '/', 'S'] then some (some 'G', false)
  else if cs = ['G', 'I', 'B', '/', 'S'] then some (some 'G', true)
  else none

/-- The `switch (prefix)` of `parseSpeed`: `'G'` → `value*base*base*base`,
`'M'` → `value*base*base`, `'K'` → `value*base`, default → `value`. -/
def speedPrefixValue (value base : ℚ) : Option Char → ℚ
  | some 'G' => value * base * base * base
  | some 'M' => value * base * base
  | some 'K' => value * base
  | _ => value

/-- `parseSpeed` from `src/src/utils/speedParsing.ts`.

```
if (!speed) return 0
const cleaned = speed.trim().toUpperCase()
const match = cleaned.match(/^([\d.]+)\s*(K|M|G)?(I)?B\/S$/)
if (!match) return 0
const value = parseFloat(match[1]); ...
const base = isBinary ? 1024 : 1000
switch (prefix) { ... }
```

The greedy group `([\d.]+)` is the maximal digit-or-dot prefix (none of the
characters the rest of the pattern can match are digits or dots, so no
backtracking into the group can succeed).  A `NaN` result (possible because
`parseFloat` of a digitless numeral such as `"."` is `NaN`) is `none`. -/
def parseSpeed (s : List Char) : Option ℚ :=
  if s = [] then some 0
  else
    let cleaned := (jsTrim s).map Char.toUpper
    let numeral := cleaned.takeWhile digitOrDot
    if numeral = [] then some 0
    else
      let rest := (cleaned.dropWhile digitOrDot).dropWhile jsIsSpace
      match matchSpeedTail rest with
      | none => some 0
      | some (pre, isBinary) =>
        match jsParseFloat numeral with
        | none => none
        | some value =>
          let base : ℚ := if isBinary then 1024 else 1000
          some (speedPrefixValue value base pre)

/-- Unit-prefix alphabet of `parseSpeed` (`(K|M|G)?` group, `noP` = group
absent). -/
inductive SpeedPre
  | noP
  | K
  | M
  | G
deriving DecidableEq

/-- The captured prefix character `match[2]` corresponding to a
`SpeedPre`. -/
def speedPreChar : SpeedPre → Option Char
  | SpeedPre.noP => none
  | SpeedPre.K => some 'K'
  | SpeedPre.M => some 'M'
  | SpeedPre.G => some 'G'

/-- Power of the base (1000 or 1024) that the spec assigns to each unit
prefix. -/
def speedPrePow : SpeedPre → ℕ
  | SpeedPre.noP => 0
  | SpeedPre.K => 1
  | SpeedPre.M => 2
  | SpeedPre.G => 3

/-- The uppercase unit-and-slash tail of a canonical speed token, e.g.
`MIB/S` for prefix `M` in binary form, `KB/S` for prefix `K` in decimal
form. -/
def speedUnitChars (p : SpeedPre) (isBinary : Bool) : List Char :=
  (match speedPreChar p with
   | some c => [c]
   | none => []) ++ (if isBinary then ['I'] else []) ++ ['B', '/', 'S']

/-- Spec-side value of a speed token: the numeric value times the power of
1000 (decimal units KB/MB/GB) or 1024 (binary units KiB/MiB/GiB) named by
the unit. -/
def specSpeedValue (q : ℚ) (p : SpeedPre) (isBinary : Bool) : ℚ :=
  q * (if isBinary then (1024 : ℚ) else 1000) ^ speedPrePow p

end SpeedParsing

/- ===================================================================
   src/electron/services/ytdlp.service.ts — class Downloader
   =================================================================== -/

namespace Ytdlp

/-- The anchored optional unit group `([KMGT]?I?B)?$` of the `parseBytes`
regex, applied after the numeral and the `\s*` gap have been consumed.  Its
regex language is exactly the eleven listed strings (`[]` means the optional
group did not participate, i.e. `match[2]` is `undefined`). -/
def matchBytesUnit (cs : List Char) : Option (List Char) :=
  if cs = [] ∨ cs = ['B'] ∨ cs = ['I', 'B'] ∨
     cs = ['K', 'B'] ∨ cs = ['K', 'I', 'B'] ∨
     cs = ['M', 'B'] ∨ cs = ['M', 'I', 'B'] ∨
     cs = ['G', 'B'] ∨ cs = ['G', 'I', 'B'] ∨
     cs = ['T', 'B'] ∨ cs = ['T', 'I', 'B']
  then some cs else none

/-- The `multipliers` table of `Downloader.parseBytes`, including the
`|| 1` fallback for a unit string absent from the table (e.g. `"IB"`).
Note that the decimal-looking suffixes KB/MB/GB/TB get the same 1024-based
multipliers as KiB/MiB/GiB/TiB. -/
def bytesMultiplier (u : List Char) : ℚ :=
  if u = ['B'] then 1
  else if u = ['K', 'B'] ∨ u = ['K', 'I', 'B'] then 1024
  else if u = ['M', 'B'] ∨ u = ['M', 'I', 'B'] then 1024 * 1024
  else if u = ['G', 'B'] ∨ u = ['G', 'I', 'B'] then 1024 * 1024 * 1024
  else if u = ['T', 'B'] ∨ u = ['T', 'I', 'B'] then 1024 * 1024 * 1024 * 1024
  else 1

/-- `Downloader.parseBytes`:

```
if (!str) return 0
const cleaned = str.trim().toUpperCase()
const match = cleaned.match(/^([\d.]+)\s*([KMGT]?I?B)?$/)
if (!match) return 0
const num = parseFloat(match[1])
const unit = match[2] || 'B'
return num * (multipliers[unit] || 1)
```

As in `parseSpeed`, the greedy numeral group is the maximal digit-or-dot
prefix, and a `NaN` product is `none`. -/
def parseBytes (s : List Char) : Option ℚ :=
  if s = [] then some 0
  else
    let cleaned := (jsTrim s).map Char.toUpper
    let numeral := cleaned.takeWhile digitOrDot
    if numeral = [] then some 0
    else
      let rest := (cleaned.dropWhile digitOrDot).dropWhile jsIsSpace
      match matchBytesUnit rest with
      | none => some 0
      | some unitGroup =>
        match jsParseFloat numeral with
        | none => none
        | some num =>
          let unit := if unitGroup = [] then ['B'] else unitGroup
          some (num * bytesMultiplier unit)

/-- Unit-prefix alphabet `[KMGT]` of `parseBytes`. -/
inductive ScalePre
  | K
  | M
  | G
  | T
deriving DecidableEq

/-- The prefix character of a `ScalePre`. -/
def scalePreChar : ScalePre → Char
  | ScalePre.K => 'K'
  | ScalePre.M => 'M'
  | ScalePre.G => 'G'
  | ScalePre.T => 'T'

/-- The power of the unit multiplier named by each prefix. -/
def scalePrePow : ScalePre → ℕ
  | ScalePre.K => 1
  | ScalePre.M => 2
  | ScalePre.G => 3
  | ScalePre.T => 4

/-- Uppercase unit suffix of a byte-size token, e.g. `KB` or `KIB`. -/
def byteUnitChars (p : ScalePre) (isBinary : Bool) : List Char :=
  [scalePreChar p] ++ (if isBinary then ['I'] else []) ++ ['B']

/-- POSIX termination signals used by the Downloader. -/
inductive Sig
  | sigterm
  | sigstop
  | sigcont
  | sigkill
deriving DecidableEq

/-- Events emitted by the Downloader that the claims are about. -/
inductive DEvent
  | evPaused
  | evResumed
  | evCancelled
deriving DecidableEq

/-- Observable actions of the Downloader on the operating system and on its
event channel. -/
inductive DAction
  | spawn (pid : ℕ)
  | signal (pid : ℕ) (s : Sig)
  | probe (pid : ℕ)
  | emit (e : DEvent)
deriving DecidableEq

/-- The mutable fields of a `Downloader` instance that the claims are about
(`this.process` as the pid of the attached subprocess, `this.isPaused`),
plus a fresh-pid source standing for the operating system. -/
structure DownloaderState where
  proc : Option ℕ
  isPaused : Bool
  nextPid : ℕ
deriving DecidableEq

/-- Result alternative for the synchronous prefix of `Downloader.download`.

The `rejected` alternative expresses the behaviour the spec asks for when a
subprocess is already attached; the source never takes it (there is no
check of `this.process` in `download`). -/
inductive DownloadStartResult
  | rejected (msg : String)
  | spawned (st : DownloaderState) (acts : List DAction)
deriving DecidableEq

/-- The synchronous prefix of `Downloader.download` (lines 226–271 of
`ytdlp.service.ts`): builds the argument list and unconditionally executes
`this.process = spawn(ytdlpPath, args, { env })`.  There is no guard on
`this.process`; an already attached handle is silently overwritten and the
old subprocess receives no signal. -/
def downloadStart (s : DownloaderState) : DownloadStartResult :=
  DownloadStartResult.spawned
    { proc := some s.nextPid, isPaused := s.isPaused, nextPid := s.nextPid + 1 }
    [DAction.spawn s.nextPid]

/-- `Downloader.pause`: `if (this.process && !this.isPaused)` send SIGSTOP,
set `isPaused`, emit `"paused"`. -/
def pause (s : DownloaderState) : DownloaderState × List DAction :=
  match s.proc with
  | some p =>
    if !s.isPaused then
      ({ s with isPaused := true }, [DAction.signal p Sig.sigstop, DAction.emit DEvent.evPaused])
    else (s, [])
  | none => (s, [])

/-- `Downloader.resume`: `if (this.process && this.isPaused)` send SIGCONT,
clear `isPaused`, emit `"resumed"`. -/
def resume (s : DownloaderState) : DownloaderState × List DAction :=
  match s.proc with
  | some p =>
    if s.isPaused then
      ({ s with isPaused := false }, [DAction.signal p Sig.sigcont, DAction.emit DEvent.evResumed])
    else (s, [])
  | none => (s, [])

/-- The grace period of the SIGKILL escalation timer in `Downloader.cancel`
(`setTimeout(..., 5000)`). -/
def GRACE_PERIOD_MS : ℕ := 5000

/-- `Downloader.cancel` (lines 354–385): if a process is attached, send
SIGTERM, schedule the escalation timer for the captured pid, then
synchronously set `this.process = null`, `this.isPaused = false` and emit
`"cancelled"`.  Result: (new state, actions performed, scheduled timer as
(pid, delay ms)).  With no process attached it is a no-op. -/
def cancel (s : DownloaderState) : DownloaderState × List DAction × Option (ℕ × ℕ) :=
  match s.proc with
  | some p =>
    ({ proc := none, isPaused := false, nextPid := s.nextPid },
     [DAction.signal p Sig.sigterm, DAction.emit DEvent.evCancelled],
     some (p, GRACE_PERIOD_MS))
  | none => (s, [], none)

/-- Firing of the escalation timer scheduled by `cancel`.  `timerCleared`
is true when the subprocess exited before the grace period elapsed (the
`proc.once('exit', () => clearTimeout(killTimeout))` handler ran);
`processAlive` is the outcome of the liveness probe `process.kill(pid, 0)`
(which throws, caught and ignored, when the process is gone).  SIGKILL is
sent only after a successful probe. -/
def killEscalationFire (pid : ℕ) (timerCleared processAlive : Bool) : List DAction :=
  if timerCleared then []
  else if pid = 0 then []
  else if processAlive then [DAction.probe pid, DAction.signal pid Sig.sigkill]
  else [DAction.probe pid]

end Ytdlp

/- ===================================================================
   BinaryManager service (binary-manager.service)
   =================================================================== -/

namespace BinMgr

/-- The four external tools managed by the BinaryManager. -/
inductive Tool
  | ytdlp
  | deno
  | whisper
  | ffmpeg
deriving DecidableEq

/-- Contents of the managed binary directory: for each tool, `none` when its
file does not exist, `some mode` (the POSIX permission bits from
`fs.statSync(...).mode`) when it does. -/
structure BinDirState where
  ytdlp : Option ℕ
  deno : Option ℕ
  whisper : Option ℕ
  ffmpeg : Option ℕ
deriving DecidableEq

/-- The fields of `BinaryInfo` the claims are about (`exists`,
`executable`; `name`, `path` and the best-effort `version` probe carry no
information for them). -/
structure BinaryInfo where
  fileExists : Bool
  executable : Bool
deriving DecidableEq

/-- `BinaryManager.checkBinary`: `exists` is `fs.existsSync`; `executable`
requires existence and at least one execute permission bit
(`(stats.mode & 0o111) !== 0`). -/
def checkBinary (stat : Option ℕ) : BinaryInfo :=
  match stat with
  | none => { fileExists := false, executable := false }
  | some mode => { fileExists := true, executable := mode &&& 0o111 != 0 }

/-- The aggregate result of `BinaryManager.checkBinaryStatus`. -/
structure BinaryStatus where
  ytdlp : BinaryInfo
  deno : BinaryInfo
  whisper : BinaryInfo
  ffmpeg : BinaryInfo
  ready : Bool
deriving DecidableEq

/-- `BinaryManager.checkBinaryStatus`: checks all four tools;
`ready: ytdlpInfo.exists && ytdlpInfo.executable && denoInfo.exists &&
denoInfo.executable` — whisper and ffmpeg are commented in the source as
optional and do not enter `ready`. -/
def checkBinaryStatus (st : BinDirState) : BinaryStatus :=
  let ytdlpInfo := checkBinary st.ytdlp
  let denoInfo := checkBinary st.deno
  let whisperInfo := checkBinary st.whisper
  let ffmpegInfo := checkBinary st.ffmpeg
  { ytdlp := ytdlpInfo, deno := denoInfo, whisper := whisperInfo, ffmpeg := ffmpegInfo,
    ready := ytdlpInfo.fileExists && ytdlpInfo.executable &&
             denoInfo.fileExists && denoInfo.executable }

/-- Effect on the binary directory of a completed `downloadBinary` for a
tool: the binary is installed and `fs.chmodSync(targetPath, 0o755)` sets
its mode (POSIX platforms). -/
def installTool (st : BinDirState) : Tool → BinDirState
  | Tool.ytdlp => { st with ytdlp := some 0o755 }
  | Tool.deno => { st with deno := some 0o755 }
  | Tool.whisper => { st with whisper := some 0o755 }
  | Tool.ffmpeg => { st with ffmpeg := some 0o755 }

/-- Failure taxonomy of `BinaryManager.downloadFile` relevant to the
claims. -/
inductive DlError
  | tooManyRedirects
  | httpStatus (code : ℕ)
  | downloadIncomplete (got total : ℕ)
  | timeout
deriving DecidableEq

/-- `BinaryManager.downloadFile` on the HTTP-200 path, parameterised by the
declared `Content-Length` (`total`, 0 when the header is absent) and the
number of bytes actually delivered (`got`).  The response is streamed into
the destination file; on `finish` the byte count is verified:
`if (totalBytes > 0 && downloadedBytes < totalBytes)` the promise rejects
with `Download incomplete: got ... of ... bytes` and `cleanup` unlinks the
destination file.  Result: (outcome, destination file contents after the
call, `none` = file absent). -/
def downloadFile (total got : ℕ) : Except DlError Unit × Option ℕ :=
  if 0 < total ∧ got < total then
    (Except.error (DlError.downloadIncomplete got total), none)
  else
    (Except.ok (), some got)

/-- The files owned by one `downloadBinary`/`downloadWhisperModel` call:
the `.tmp` sibling (`targetPath + '.tmp'`), the archive sibling
(`targetPath + '.tmp.zip'`, zip downloads only), and the file under the
final name (`targetPath`).  `some n` = a file of `n` bytes exists. -/
structure ArtifactFs where
  tmp : Option ℕ
  tmpZip : Option ℕ
  final : Option ℕ
deriving DecidableEq

/-- `BinaryManager.downloadBinary` after URL resolution (lines 471–507):
download into the `.tmp` (or `.tmp.zip`) sibling, then — only when
`downloadFile` resolved, i.e. after size verification — either extract the
archive and delete it, or unlink any existing final file and
`fs.renameSync` the `.tmp` file onto the final name.  The `catch` block
unlinks both temp siblings if present and rethrows; the final name is not
touched on the failure path.  (A successful archive extraction is assumed;
its own failure modes are outside the claims.) -/
def downloadBinaryStep (isZip : Bool) (total got : ℕ) (fs : ArtifactFs) :
    Except DlError Unit × ArtifactFs :=
  match downloadFile total got with
  | (Except.error e, _) =>
    (Except.error e, { tmp := none, tmpZip := none, final := fs.final })
  | (Except.ok _, content) =>
    if isZip then
      (Except.ok (), { tmp := fs.tmp, tmpZip := none, final := content })
    else
      (Except.ok (), { tmp := none, tmpZip := fs.tmpZip, final := content })

/-- `Object.keys(WHISPER_MODEL_URLS)` in insertion order. -/
def WHISPER_MODEL_KEYS : List String := ["tiny", "base", "small", "medium"]

/-- The `WHISPER_MODEL_URLS` table: the fixed enumeration of valid model
names, each with its one download URL. -/
def WHISPER_MODEL_URLS (name : String) : Option String :=
  if name = "tiny" then
    some ("https://huggingface.co/ggerganov/whisper.cpp/resolve/main/ggml-tiny.bin")
  else if name = "base" then
    some ("https://huggingface.co/ggerganov/whisper.cpp/resolve/main/ggml-base.bin")
  else if name = "small" then
    some ("https://huggingface.co/ggerganov/whisper.cpp/resolve/main/ggml-small.bin")
  else if name = "medium" then
    some ("https://huggingface.co/ggerganov/whisper.cpp/resolve/main/ggml-medium.bin")
  else none

/-- The error message thrown by `downloadWhisperModel` for a name outside
the table: `Unknown whisper model: ${modelName}. Available:
${Object.keys(WHISPER_MODEL_URLS).join(', ')}`. -/
def unknownModelMessage (name : String) : String :=
  "Unknown whisper model: " ++ name ++ ". Available: " ++
    String.intercalate (", ") WHISPER_MODEL_KEYS

/-- Rendering of `DlError` to the thrown `Error` message. -/
def dlErrorMessage : DlError → String
  | DlError.tooManyRedirects => "Too many redirects"
  | DlError.httpStatus code => "Failed to download: HTTP " ++ toString code
  | DlError.downloadIncomplete got total =>
    "Download incomplete: got " ++ toString got ++ " of " ++ toString total ++ " bytes"
  | DlError.timeout => "Download timed out after 300 seconds"

/-- A network download request, keyed the way the dedup claim keys
artifacts: by artifact name. -/
inductive Artifact
  | tool (t : Tool)
  | model (name : String)
deriving DecidableEq

/-- `BinaryManager.downloadWhisperModel` (lines 756–795): after
`ensureModelsDir` (a local mkdir, no network), the name is looked up in
`WHISPER_MODEL_URLS`; an unknown name throws before any network request.
Otherwise the model is downloaded to `modelPath + '.tmp'` and renamed onto
the final name after size verification, an existing final file being
unlinked first; the `catch` block unlinks the temp file.  Result:
(outcome, model-file state, network requests performed).  Note: there is no
in-flight-download guard anywhere in this method. -/
def downloadWhisperModelRun (name : String) (total got : ℕ) (fs : ArtifactFs) :
    Except String Unit × ArtifactFs × List Artifact :=
  match WHISPER_MODEL_URLS name with
  | none => (Except.error (unknownModelMessage name), fs, [])
  | some _ =>
    match downloadFile total got with
    | (Except.error e, _) =>
      (Except.error (dlErrorMessage e),
       { tmp := none, tmpZip := fs.tmpZip, final := fs.final },
       [Artifact.model name])
    | (Except.ok _, content) =>
      (Except.ok (),
       { tmp := none, tmpZip := fs.tmpZip, final := content },
       [Artifact.model name])

end BinMgr

namespace BinMgr

/-!
Interleaving machine for the BinaryManager's concurrent downloads.

JavaScript is single-threaded: code between two `await` points runs
atomically, and concurrent callers interleave only at `await` boundaries.
The steps below are the `await`-delimited regions of `downloadAllBinaries`
and of the downloads it performs:

* `guardEnterOrAttach` — the synchronous prefix of `downloadAllBinaries`:
  `if (this.downloadInProgress) return this.downloadInProgress` (the caller
  then merely awaits the existing promise and performs no further steps of
  its own), else `this.downloadInProgress = doDownload()` (the promise is
  created and stored before control can reach any other caller, because
  `doDownload` suspends at its first `await`).
* `checkAndQueue` — `await this.checkBinaryStatus()` followed by the two
  conditionals: a download is queued for each of yt-dlp and deno that is
  missing or not executable in the status just computed.
* `net a` — the network request of one `downloadFile`.
* `install t` — completion of one `downloadBinary`: rename into place and
  `chmod 0o755`.
* `clearInflight` — the `finally { this.downloadInProgress = null }`.
-/

/-- One `await`-delimited atomic region. -/
inductive CStep
  | guardEnterOrAttach
  | checkAndQueue
  | net (a : Artifact)
  | install (t : Tool)
  | clearInflight
deriving DecidableEq

/-- Shared state of the BinaryManager: the `downloadInProgress` field
(`true` iff non-null) and the binary directory. -/
structure BmConfig where
  inflight : Bool
  bins : BinDirState
deriving DecidableEq

/-- The downloads queued by `doDownload` from a freshly computed status:
`if (!status.ytdlp.exists || !status.ytdlp.executable) await
this.downloadBinary('yt-dlp')`, then likewise for deno. -/
def queueDownloads (bins : BinDirState) : List CStep :=
  let status := checkBinaryStatus bins
  (if !(status.ytdlp.fileExists && status.ytdlp.executable) then
    [CStep.net (Artifact.tool Tool.ytdlp), CStep.install Tool.ytdlp]
  else []) ++
  (if !(status.deno.fileExists && status.deno.executable) then
    [CStep.net (Artifact.tool Tool.deno), CStep.install Tool.deno]
  else [])

/-- Execute the next atomic region of one caller.  Result: (new shared
state, remainder of this caller's steps, network requests performed).  A
finished caller (`[]`) does nothing. -/
def execStep (st : BmConfig) : List CStep → BmConfig × List CStep × List Artifact
  | [] => (st, [], [])
  | CStep.guardEnterOrAttach :: rest =>
    if st.inflight then (st, [], [])
    else ({ st with inflight := true }, rest, [])
  | CStep.checkAndQueue :: rest => (st, queueDownloads st.bins ++ rest, [])
  | CStep.net a :: rest => (st, rest, [a])
  | CStep.install t :: rest => ({ st with bins := installTool st.bins t }, rest, [])
  | CStep.clearInflight :: rest => ({ st with inflight := false }, rest, [])

/-- Result of running two interleaved callers. -/
structure ConcResult where
  st : BmConfig
  t1 : List CStep
  t2 : List CStep
  trace : List Artifact
deriving DecidableEq

/-- Run two callers under a schedule: `true` steps caller 1, `false` steps
caller 2.  The trace collects all network requests in order. -/
def execConc : List Bool → BmConfig → List CStep → List CStep → ConcResult
  | [], st, t1, t2 => { st := st, t1 := t1, t2 := t2, trace := [] }
  | b :: sched, st, t1, t2 =>
    if b then
      let r := execStep st t1
      let k := execConc sched r.1 r.2.1 t2
      { k with trace := r.2.2 ++ k.trace }
    else
      let r := execStep st t2
      let k := execConc sched r.1 t1 r.2.1
      { k with trace := r.2.2 ++ k.trace }

/-- The steps of one `downloadAllBinaries()` call. -/
def allBinariesThread : List CStep :=
  [CStep.guardEnterOrAttach, CStep.checkAndQueue, CStep.clearInflight]

/-- The steps of one `downloadWhisperModel(name)` call: `ensureModelsDir`
and the URL lookup perform no network request and touch no shared dedup
state (the method never reads or writes `downloadInProgress`); a known name
then performs one network download. -/
def downloadWhisperModelThread (name : String) : List CStep :=
  match WHISPER_MODEL_URLS name with
  | none => []
  | some _ => [CStep.net (Artifact.model name)]

/-- A machine with no binaries installed and no download in flight. -/
def emptyBins : BinDirState :=
  { ytdlp := none, deno := none, whisper := none, ffmpeg := none }

/-- Initial shared state. -/
def initialBm : BmConfig := { inflight := false, bins := emptyBins }

end BinMgr

/- ===================================================================
   Transcriber service (whisper transcription controller)
   =================================================================== -/

namespace Whisper

/-- Outcome of the spawned whisper-cli subprocess for one `transcribe`
call. -/
inductive RunOutcome
  | exitZeroFound
  | exitZeroFallbackFound
  | exitZeroNotFound
  | exitNonzero
  | spawnError
deriving DecidableEq

/-- The environment one `transcribe` call observes: existence of the input
and of the prerequisites, outcome of the ffmpeg conversion (when one is
needed) and of the whisper run. -/
structure TranscribeEnv where
  audioFileExists : Bool
  ext : String
  convertOk : Bool
  whisperBinaryExists : Bool
  modelFileExists : Bool
  run : RunOutcome
deriving DecidableEq

/-- Result of one `transcribe` call together with whether the intermediate
16 kHz mono wav file produced by the format gate is still on disk when the
call returns. -/
structure TranscribeOutcome where
  result : Except String Unit
  tempWavOnDisk : Bool

/-- `supportedFormats` of `Transcriber.transcribe` (whisper-cli input
containers). -/
def supportedFormats : List String := [".flac", ".mp3", ".ogg", ".wav"]

/-- `Transcriber.transcribe` (database.service part, lines 102–276), with
the subprocess outcome abstracted into `env.run`:

1. reject if the audio file does not exist (no intermediate was created);
2. format gate: if `path.extname(audioFile).toLowerCase()` is outside
   `supportedFormats`, run `convertToWav` (16 kHz, mono) and record the
   result in `this.tempWavFile`; a conversion failure rejects;
3. reject if the whisper binary is missing — note: this `reject` does NOT
   call `cleanupTempFile`, so the intermediate stays on disk;
4. reject if the model file is missing — same missing cleanup;
5. run whisper-cli; every `close`/`error` handler path calls
   `cleanupTempFile` before resolving or rejecting. -/
def transcribe (env : TranscribeEnv) : TranscribeOutcome :=
  if !env.audioFileExists then
    { result := Except.error ("Audio file not found"), tempWavOnDisk := false }
  else
    let needsConvert := !(supportedFormats.contains env.ext)
    if needsConvert && !env.convertOk then
      { result := Except.error ("Failed to convert audio to wav"), tempWavOnDisk := false }
    else if !env.whisperBinaryExists then
      { result := Except.error ("Whisper binary not found. Please download it first."),
        tempWavOnDisk := needsConvert }
    else if !env.modelFileExists then
      { result := Except.error ("Whisper model not found. Please download it first."),
        tempWavOnDisk := needsConvert }
    else
      match env.run with
      | RunOutcome.exitZeroFound =>
        { result := Except.ok (), tempWavOnDisk := false }
      | RunOutcome.exitZeroFallbackFound =>
        { result := Except.ok (), tempWavOnDisk := false }
      | RunOutcome.exitZeroNotFound =>
        { result := Except.error ("Transcription completed but output file not found"),
          tempWavOnDisk := false }
      | RunOutcome.exitNonzero =>
        { result := Except.error ("Transcription failed"), tempWavOnDisk := false }
      | RunOutcome.spawnError =>
        { result := Except.error ("Process error"), tempWavOnDisk := false }

/-- `Transcriber.cancel`: SIGTERM if a process is attached, then
`cleanupTempFile()` unconditionally — the intermediate wav never survives a
cancellation.  Input: (attached process, `this.tempWavFile`); output:
(fields after, intermediate still on disk). -/
def cancel (_proc : Option ℕ) (_tempWavFile : Option String) :
    (Option ℕ × Option String) × Bool :=
  ((none, none), false)

/-- Phases of a `TranscriptionProgress` event. -/
inductive Phase
  | loading
  | transcribing
  | saving
deriving DecidableEq

/-- A `TranscriptionProgress` event as emitted by `parseProgress`.  The
`currentTime` string `"HH:MM:SS"` is represented by its (hours, minutes,
seconds) digits group values; `totalTime` (built by `formatDuration`) by
its (hours, minutes, seconds) numbers. -/
structure TranscriptionProgress where
  percent : ℤ
  currentTime : Option (ℕ × ℕ × ℕ)
  totalTime : Option (ℤ × ℤ × ℤ)
  phase : Phase
deriving DecidableEq

/-- JavaScript `%` (remainder) for the non-negative operands
`formatDuration` uses. -/
def jsMod (a m : ℚ) : ℚ := a - m * ((a / m).floor : ℚ)

/-- `Transcriber.formatDuration`: `Math.floor(seconds / 3600)`,
`Math.floor((seconds % 3600) / 60)`, `Math.floor(seconds % 60)`. -/
def formatDuration (seconds : ℚ) : ℤ × ℤ × ℤ :=
  ((seconds / 3600).floor, ((jsMod seconds 3600) / 60).floor, (jsMod seconds 60).floor)

/-- Case-insensitive match of one character against a lowercase/uppercase
pair (regex `/i` flag). -/
def matchesCI (c lo hi : Char) : Bool := c = lo || c = hi

/-- Attempt to match `/progress\s*=\s*(\d+)\s*%/i` at the head of the
string; returns `parseInt(match[1], 10)` on success. -/
def matchStructAt (cs : List Char) : Option ℕ :=
  match cs with
  | c1 :: c2 :: c3 :: c4 :: c5 :: c6 :: c7 :: c8 :: rest =>
    if matchesCI c1 'p' 'P' && matchesCI c2 'r' 'R' && matchesCI c3 'o' 'O' &&
       matchesCI c4 'g' 'G' && matchesCI c5 'r' 'R' && matchesCI c6 'e' 'E' &&
       matchesCI c7 's' 'S' && matchesCI c8 's' 'S' then
      match rest.dropWhile jsIsSpace with
      | '=' :: r2 =>
        let r3 := r2.dropWhile jsIsSpace
        let ds := r3.takeWhile Char.isDigit
        if ds = [] then none
        else
          match (r3.dropWhile Char.isDigit).dropWhile jsIsSpace with
          | '%' :: _ => some (digitsToNat ds)
          | _ => none
      | _ => none
    else none
  | _ => none

/-- Leftmost match of the structured-progress regex (fuel-indexed scan; the
fuel `cs.length` always suffices because each shift consumes one
character). -/
def findStructGo : ℕ → List Char → Option ℕ
  | _, [] => none
  | 0, _ => none
  | fuel + 1, c :: cs =>
    match matchStructAt (c :: cs) with
    | some v => some v
    | none => findStructGo fuel cs

/-- `output.match(/progress\s*=\s*(\d+)\s*%/i)`, first match. -/
def findStruct (cs : List Char) : Option ℕ := findStructGo cs.length cs

/-- Attempt to match `\[(\d{2}):(\d{2}):(\d{2})\.\d+\s*-->` at the head of
the string; returns the three two-digit groups and the remainder after the
match. -/
def matchTsAt : List Char → Option ((ℕ × ℕ × ℕ) × List Char)
  | '[' :: h1 :: h2 :: ':' :: m1 :: m2 :: ':' :: s1 :: s2 :: '.' :: rest =>
    if h1.isDigit && h2.isDigit && m1.isDigit && m2.isDigit && s1.isDigit && s2.isDigit then
      let frac := rest.takeWhile Char.isDigit
      if frac = [] then none
      else
        match (rest.dropWhile Char.isDigit).dropWhile jsIsSpace with
        | '-' :: '-' :: '>' :: r3 =>
          some ((digitsToNat [h1, h2], digitsToNat [m1, m2], digitsToNat [s1, s2]), r3)
        | _ => none
    else none
  | _ => none

/-- All (non-overlapping, left to right) matches of the timestamp regex
with the `g` flag (fuel-indexed scan; each step consumes at least one
character, so fuel `cs.length` suffices). -/
def scanTimestampsGo : ℕ → List Char → List (ℕ × ℕ × ℕ)
  | _, [] => []
  | 0, _ => []
  | fuel + 1, c :: cs =>
    match matchTsAt (c :: cs) with
    | some (t, rest) => t :: scanTimestampsGo fuel rest
    | none => scanTimestampsGo fuel cs

/-- `output.match(/\[(\d{2}):(\d{2}):(\d{2})\.\d+\s*-->/g)`, with each
match replaced by its captured (hours, minutes, seconds) digit groups (the
source re-extracts exactly these groups from the matched text). -/
def scanTimestamps (cs : List Char) : List (ℕ × ℕ × ℕ) :=
  scanTimestampsGo cs.length cs

/-- `Transcriber.parseProgress` (lines 287–322), as the event it emits (or
`none` when it emits nothing):

1. a structured `progress = N%` token wins and is reported as-is;
2. otherwise, with at least one caption timestamp in the output and a
   positive known `totalDuration`, the last timestamp's start time is
   converted to seconds and the percent is
   `Math.min(99, Math.round((currentSeconds / totalDuration) * 100))`. -/
def parseProgress (output : List Char) (totalDuration : ℚ) : Option TranscriptionProgress :=
  match findStruct output with
  | some n =>
    some { percent := (n : ℤ), currentTime := none, totalTime := none,
           phase := Phase.transcribing }
  | none =>
    match (scanTimestamps output).getLast? with
    | some (hh, mm, ss) =>
      if 0 < totalDuration then
        let currentSeconds : ℕ := hh * 3600 + mm * 60 + ss
        some { percent := min 99 (jsRound ((currentSeconds : ℚ) / totalDuration * 100)),
               currentTime := some (hh, mm, ss),
               totalTime := some (formatDuration totalDuration),
               phase := Phase.transcribing }
      else none
    | none => none

end Whisper

namespace BinMgr

/-- An interleaving configuration together with the number of yt-dlp and
deno network downloads performed so far (used to verify the deduplication
behaviour of two concurrent `downloadAllBinaries` callers by finite-state
exploration). -/
structure XCfg where
  st : BmConfig
  t1 : List CStep
  t2 : List CStep
  cy : ℕ
  cd : ℕ
deriving DecidableEq

/-- Number of yt-dlp network downloads in a trace. -/
def countY (tr : List Artifact) : ℕ := tr.count (Artifact.tool Tool.ytdlp)

/-- Number of deno network downloads in a trace. -/
def countD (tr : List Artifact) : ℕ := tr.count (Artifact.tool Tool.deno)

/-- One scheduling step on a counted configuration (`true` steps caller 1,
`false` steps caller 2). -/
def xstep (b : Bool) (x : XCfg) : XCfg :=
  if b then
    let r := execStep x.st x.t1
    { st := r.1, t1 := r.2.1, t2 := x.t2, cy := x.cy + countY r.2.2, cd := x.cd + countD r.2.2 }
  else
    let r := execStep x.st x.t2
    { st := r.1, t1 := x.t1, t2 := r.2.1, cy := x.cy + countY r.2.2, cd := x.cd + countD r.2.2 }

/-- Two `downloadAllBinaries()` callers starting concurrently on a machine
with no binaries installed. -/
def x0 : XCfg :=
  { st := initialBm, t1 := allBinariesThread, t2 := allBinariesThread, cy := 0, cd := 0 }

/-- Fuel-bounded breadth-first exploration of the configurations reachable
from a frontier (the fuel 200 used below is far more than the number of
reachable configurations, which is 30). -/
def bfsGo : ℕ → List XCfg → List XCfg → List XCfg
  | 0, _, seen => seen
  | _, [], seen => seen
  | fuel + 1, x :: rest, seen =>
    if x ∈ seen then bfsGo fuel rest seen
    else bfsGo fuel (xstep true x :: xstep false x :: rest) (x :: seen)

/-- All configurations reachable from `x0` (closure is proved, not assumed:
see `rset_closed`). -/
def RSet : List XCfg := bfsGo 200 [x0] []

end BinMgr

/- ===================================================================
   Theorems
   =================================================================== -/

/-- `takeWhile` passes over a prefix all of whose characters satisfy the
predicate. -/
theorem takeWhile_append_all (p : Char → Bool) (as bs : List Char)
    (h : ∀ c ∈ as, p c = true) :
    (as ++ bs).takeWhile p = as ++ bs.takeWhile p := by
  induction as with
  | nil => simp
  | cons a as ih =>
    have ha : p a = true := h a (by simp)
    simp [List.takeWhile_cons, ha, ih (fun c hc => h c (by simp [hc]))]

/-- `dropWhile` consumes a prefix all of whose characters satisfy the
predicate. -/
theorem dropWhile_append_all (p : Char → Bool) (as bs : List Char)
    (h : ∀ c ∈ as, p c = true) :
    (as ++ bs).dropWhile p = bs.dropWhile p := by
  induction as with
  | nil => simp
  | cons a as ih =>
    have ha : p a = true := h a (by simp)
    simp [List.dropWhile_cons, ha, ih (fun c hc => h c (by simp [hc]))]

/-- Leading spaces are consumed by `dropWhile jsIsSpace`. -/
theorem dropWhile_ws_replicate (k : ℕ) (xs : List Char) :
    (List.replicate k ' ' ++ xs).dropWhile jsIsSpace = xs.dropWhile jsIsSpace := by
  induction k with
  | zero => simp
  | succ n ih =>
    simp [List.replicate_succ, List.dropWhile_cons,
      (by decide : jsIsSpace ' ' = true), ih]

namespace SpeedParsing

theorem takeWhile_dd_speedUnit (p : SpeedPre) (b : Bool) :
    (speedUnitChars p b).takeWhile digitOrDot = [] := by
  cases p <;> cases b <;> decide

theorem dropWhile_dd_speedUnit (p : SpeedPre) (b : Bool) :
    (speedUnitChars p b).dropWhile digitOrDot = speedUnitChars p b := by
  cases p <;> cases b <;> decide

theorem dropWhile_ws_speedUnit (p : SpeedPre) (b : Bool) :
    (speedUnitChars p b).dropWhile jsIsSpace = speedUnitChars p b := by
  cases p <;> cases b <;> decide

theorem matchSpeedTail_speedUnit (p : SpeedPre) (b : Bool) :
    matchSpeedTail (speedUnitChars p b) = some (speedPreChar p, b) := by
  cases p <;> cases b <;> decide

theorem speedPrefixValue_spec (q : ℚ) (p : SpeedPre) (b : Bool) :
    speedPrefixValue q (if b then (1024 : ℚ) else 1000) (speedPreChar p) =
      specSpeedValue q p b := by
  cases p <;> cases b <;>
    simp [speedPrefixValue, specSpeedValue, speedPreChar, speedPrePow] <;> ring

/-- C5 (amended): on every input whose trimmed, uppercased form is a
well-formed numeral, optional spaces, and a unit-and-`/S` tail, `parseSpeed`
returns exactly the numeral value times the decimal (KB/MB/GB: powers of
1000) or binary (KiB/MiB/GiB: powers of 1024) unit multiplier; every input
that fails the numeral-unit-`/s` pattern yields 0 (and the function is
total, so it never throws). -/
theorem parseSpeed_correct :
    (∀ (s numStr : List Char) (q : ℚ) (sp : ℕ) (p : SpeedPre) (isBinary : Bool),
        (jsTrim s).map Char.toUpper =
          numStr ++ List.replicate sp ' ' ++ speedUnitChars p isBinary →
        numStr ≠ [] →
        (∀ c ∈ numStr, digitOrDot c = true) →
        jsParseFloat numStr = some q →
        parseSpeed s = some (specSpeedValue q p isBinary))
    ∧ (∀ s : List Char,
        ((jsTrim s).map Char.toUpper).takeWhile digitOrDot = [] ∨
        matchSpeedTail
          ((((jsTrim s).map Char.toUpper).dropWhile digitOrDot).dropWhile jsIsSpace) = none →
        parseSpeed s = some 0) := by
  constructor
  · intro s numStr q sp p isBinary hclean hne hcs hq
    have hs : s ≠ [] := by
      intro h
      subst h
      simp only [jsTrim, List.dropWhile_nil, List.reverse_nil, List.map_nil] at hclean
      rcases List.append_eq_nil.mp hclean.symm with ⟨h1, -⟩
      rcases List.append_eq_nil.mp h1 with ⟨h2, -⟩
      exact hne h2
    have hnum : ((jsTrim s).map Char.toUpper).takeWhile digitOrDot = numStr := by
      rw [hclean, List.append_assoc, takeWhile_append_all _ _ _ hcs]
      cases sp with
      | zero => simp [takeWhile_dd_speedUnit]
      | succ n =>
        simp [List.replicate_succ, List.takeWhile_cons,
          (by decide : digitOrDot ' ' = false)]
    have hrest : (((jsTrim s).map Char.toUpper).dropWhile digitOrDot).dropWhile jsIsSpace =
        speedUnitChars p isBinary := by
      rw [hclean, List.append_assoc, dropWhile_append_all _ _ _ hcs]
      cases sp with
      | zero =>
        simp [dropWhile_dd_speedUnit, dropWhile_ws_speedUnit]
      | succ n =>
        rw [show List.replicate (n + 1) ' ' ++ speedUnitChars p isBinary =
              ' ' :: (List.replicate n ' ' ++ speedUnitChars p isBinary) by
            simp [List.replicate_succ]]
        rw [List.dropWhile_cons_of_neg (by decide)]
        rw [show (' ' :: (List.replicate n ' ' ++ speedUnitChars p isBinary)) =
              List.replicate (n + 1) ' ' ++ speedUnitChars p isBinary by
            simp [List.replicate_succ]]
        rw [dropWhile_ws_replicate, dropWhile_ws_speedUnit]
    rw [parseSpeed, if_neg hs]
    simp only [hnum, hrest, matchSpeedTail_speedUnit, hq, if_neg hne]
    rw [speedPrefixValue_spec]
  · intro s hfail
    by_cases hs : s = []
    · simp [parseSpeed, hs]
    · rcases hfail with h | h
      · simp [parseSpeed, if_neg hs, h]
      · rw [parseSpeed, if_neg hs]
        by_cases hn : ((jsTrim s).map Char.toUpper).takeWhile digitOrDot = []
        · simp [hn]
        · simp only [if_neg hn, h]

/-- C5 counterexample: the malformed input `".B/s"` matches the regex (the
numeral group captures `"."`), `parseFloat(".")` is `NaN`, and `parseSpeed`
returns `NaN` — not the 0 the claim requires for every malformed input. -/
theorem parseSpeed_nan_counterexample :
    parseSpeed ((".B/s").toList) = none ∧ (none : Option ℚ) ≠ some 0 := by
  constructor
  · decide
  · decide

/-- Witness for `parseSpeed_correct`: `"1.5 MiB/s"` (mixed case, with a
space) parses to `1.5 * 1024² = 1572864` bytes/s, and `"abc"` parses to
0. -/
theorem parseSpeed_correct_witness :
    parseSpeed (("1.5 MiB/s").toList) = some (specSpeedValue (3/2) SpeedPre.M true)
    ∧ parseSpeed (("abc").toList) = some 0 := by
  constructor
  · exact parseSpeed_correct.1 (("1.5 MiB/s").toList) (['1', '.', '5']) (3/2) 1 SpeedPre.M true
      (by decide) (by decide) (by decide)
      (by simp [jsParseFloat, List.takeWhile, List.dropWhile, digitsToNat]; norm_num)
  · exact parseSpeed_correct.2 (("abc").toList) (Or.inl (by decide))

end SpeedParsing

/-- A character that fails the predicate survives `dropWhile`. -/
theorem mem_dropWhile_of_not (p : Char → Bool) (c : Char) (l : List Char)
    (hc : c ∈ l) (hp : p c = false) : c ∈ l.dropWhile p := by
  induction l with
  | nil => simp at hc
  | cons a l ih =>
    by_cases ha : p a = true
    · rw [List.dropWhile_cons_of_pos ha]
      rcases List.mem_cons.mp hc with rfl | h
      · rw [hp] at ha
        exact absurd ha (by simp)
      · exact ih h
    · rw [List.dropWhile_cons_of_neg (by simpa using ha)]
      exact hc

/-- A non-whitespace character survives `jsTrim`. -/
theorem mem_jsTrim (c : Char) (l : List Char)
    (hc : c ∈ l) (hp : jsIsSpace c = false) : c ∈ jsTrim l := by
  unfold jsTrim
  rw [List.mem_reverse]
  exact mem_dropWhile_of_not _ _ _ (by rw [List.mem_reverse]; exact mem_dropWhile_of_not _ _ _ hc hp) hp

namespace Ytdlp

theorem matchBytesUnit_slash (cs : List Char) (h : '/' ∈ cs) :
    matchBytesUnit cs = none := by
  rw [matchBytesUnit]
  split_ifs with hc
  · exfalso
    rcases hc with rfl | rfl | rfl | rfl | rfl | rfl | rfl | rfl | rfl | rfl | rfl <;>
      exact absurd h (by decide)
  · rfl

theorem takeWhile_dd_byteUnit (p : ScalePre) (b : Bool) :
    (byteUnitChars p b).takeWhile digitOrDot = [] := by
  cases p <;> cases b <;> decide

theorem dropWhile_dd_byteUnit (p : ScalePre) (b : Bool) :
    (byteUnitChars p b).dropWhile digitOrDot = byteUnitChars p b := by
  cases p <;> cases b <;> decide

theorem dropWhile_ws_byteUnit (p : ScalePre) (b : Bool) :
    (byteUnitChars p b).dropWhile jsIsSpace = byteUnitChars p b := by
  cases p <;> cases b <;> decide

theorem matchBytesUnit_byteUnit (p : ScalePre) (b : Bool) :
    matchBytesUnit (byteUnitChars p b) = some (byteUnitChars p b) := by
  cases p <;> cases b <;> decide

theorem byteUnit_ne_nil (p : ScalePre) (b : Bool) : byteUnitChars p b ≠ [] := by
  cases p <;> cases b <;> decide

theorem bytesMultiplier_byteUnit (p : ScalePre) (b : Bool) :
    bytesMultiplier (byteUnitChars p b) = (1024 : ℚ) ^ scalePrePow p := by
  cases p <;> cases b <;>
    simp [bytesMultiplier, byteUnitChars, scalePreChar, scalePrePow] <;> norm_num

/-- C10: `parseBytes` assigns every decimal-suffixed unit (KB/MB/GB/TB) the
same 1024-based multiplier as the corresponding binary-suffixed unit
(KiB/MiB/GiB/TiB) — the conclusion does not depend on `isBinary` — and any
token containing a `'/'` (in particular every speed string ending in
`"/s"`), or otherwise failing the number-plus-unit pattern, yields 0. -/
theorem parseBytes_correct :
    (∀ (s numStr : List Char) (q : ℚ) (sp : ℕ) (p : ScalePre) (isBinary : Bool),
        (jsTrim s).map Char.toUpper =
          numStr ++ List.replicate sp ' ' ++ byteUnitChars p isBinary →
        numStr ≠ [] →
        (∀ c ∈ numStr, digitOrDot c = true) →
        jsParseFloat numStr = some q →
        parseBytes s = some (q * (1024 : ℚ) ^ scalePrePow p))
    ∧ (∀ s : List Char, '/' ∈ s → parseBytes s = some 0)
    ∧ (∀ s : List Char,
        ((jsTrim s).map Char.toUpper).takeWhile digitOrDot = [] ∨
        matchBytesUnit
          ((((jsTrim s).map Char.toUpper).dropWhile digitOrDot).dropWhile jsIsSpace) = none →
        parseBytes s = some 0) := by
  refine ⟨?_, ?_, ?_⟩
  · intro s numStr q sp p isBinary hclean hne hcs hq
    have hs : s ≠ [] := by
      intro h
      subst h
      simp only [jsTrim, List.dropWhile_nil, List.reverse_nil, List.map_nil] at hclean
      rcases List.append_eq_nil.mp hclean.symm with ⟨h1, -⟩
      rcases List.append_eq_nil.mp h1 with ⟨h2, -⟩
      exact hne h2
    have hnum : ((jsTrim s).map Char.toUpper).takeWhile digitOrDot = numStr := by
      rw [hclean, List.append_assoc, takeWhile_append_all _ _ _ hcs]
      cases sp with
      | zero => simp [takeWhile_dd_byteUnit]
      | succ n =>
        simp [List.replicate_succ, List.takeWhile_cons,
          (by decide : digitOrDot ' ' = false)]
    have hrest : (((jsTrim s).map Char.toUpper).dropWhile digitOrDot).dropWhile jsIsSpace =
        byteUnitChars p isBinary := by
      rw [hclean, List.append_assoc, dropWhile_append_all _ _ _ hcs]
      cases sp with
      | zero =>
        simp [dropWhile_dd_byteUnit, dropWhile_ws_byteUnit]
      | succ n =>
        rw [show List.replicate (n + 1) ' ' ++ byteUnitChars p isBinary =
              ' ' :: (List.replicate n ' ' ++ byteUnitChars p isBinary) by
            simp [List.replicate_succ]]
        rw [List.dropWhile_cons_of_neg (by decide)]
        rw [show (' ' :: (List.replicate n ' ' ++ byteUnitChars p isBinary)) =
              List.replicate (n + 1) ' ' ++ byteUnitChars p isBinary by
            simp [List.replicate_succ]]
        rw [dropWhile_ws_replicate, dropWhile_ws_byteUnit]
    rw [parseBytes, if_neg hs]
    simp only [hnum, hrest, matchBytesUnit_byteUnit, hq, if_neg hne,
      if_neg (byteUnit_ne_nil p isBinary)]
    rw [bytesMultiplier_byteUnit]
  · intro s hmem
    have hs : s ≠ [] := by rintro rfl; simp at hmem
    have h1 : ('/' : Char) ∈ jsTrim s := mem_jsTrim _ _ hmem (by decide)
    have h2 : ('/' : Char) ∈ (jsTrim s).map Char.toUpper := by
      have : Char.toUpper '/' = '/' := by decide
      exact this ▸ List.mem_map_of_mem Char.toUpper h1
    rw [parseBytes, if_neg hs]
    by_cases hn : ((jsTrim s).map Char.toUpper).takeWhile digitOrDot = []
    · simp [hn]
    · have h3 : ('/' : Char) ∈ ((jsTrim s).map Char.toUpper).dropWhile digitOrDot :=
        mem_dropWhile_of_not _ _ _ h2 (by decide)
      have h4 : ('/' : Char) ∈
          (((jsTrim s).map Char.toUpper).dropWhile digitOrDot).dropWhile jsIsSpace :=
        mem_dropWhile_of_not _ _ _ h3 (by decide)
      simp only [if_neg hn, matchBytesUnit_slash _ h4]
  · intro s hfail
    by_cases hs : s = []
    · simp [parseBytes, hs]
    · rcases hfail with h | h
      · simp [parseBytes, if_neg hs, h]
      · rw [parseBytes, if_neg hs]
        by_cases hn : ((jsTrim s).map Char.toUpper).takeWhile digitOrDot = []
        · simp [hn]
        · simp only [if_neg hn, h]

/-- Witness for `parseBytes_correct`: `parseBytes "1.5KB" = parseBytes
"1.5KiB" = 1.5 * 1024`, and the speed token `"1.5KB/s"` yields 0. -/
theorem parseBytes_correct_witness :
    parseBytes (("1.5KB").toList) = some ((3/2) * (1024 : ℚ) ^ scalePrePow ScalePre.K)
    ∧ parseBytes (("1.5KiB").toList) = some ((3/2) * (1024 : ℚ) ^ scalePrePow ScalePre.K)
    ∧ parseBytes (("1.5KB/s").toList) = some 0 := by
  refine ⟨?_, ?_, ?_⟩
  · exact parseBytes_correct.1 (("1.5KB").toList) (['1', '.', '5']) (3/2) 0 ScalePre.K false
      (by decide) (by decide) (by decide)
      (by simp [jsParseFloat, List.takeWhile, List.dropWhile, digitsToNat]; norm_num)
  · exact parseBytes_correct.1 (("1.5KiB").toList) (['1', '.', '5']) (3/2) 0 ScalePre.K true
      (by decide) (by decide) (by decide)
      (by simp [jsParseFloat, List.takeWhile, List.dropWhile, digitsToNat]; norm_num)
  · exact parseBytes_correct.2.1 (("1.5KB/s").toList) (by decide)

end Ytdlp

namespace BinMgr

/-- C2: a download whose server declares `total > 0` bytes but delivers
fewer fails with the download-incomplete error, and afterwards neither the
`.tmp` sibling nor the archive sibling exists and the final name is
untouched (in particular no partially written file appears under it); a
successful outcome is possible only when the byte-count verification
passed, and only then is the verified file moved to the final name. -/
theorem downloadBinary_atomic :
    (∀ (isZip : Bool) (total got : ℕ) (fs : ArtifactFs), 0 < total → got < total →
        downloadBinaryStep isZip total got fs =
          (Except.error (DlError.downloadIncomplete got total),
           { tmp := none, tmpZip := none, final := fs.final }))
    ∧ (∀ (isZip : Bool) (total got : ℕ) (fs : ArtifactFs),
        (downloadBinaryStep isZip total got fs).1 = Except.ok () →
        ¬(0 < total ∧ got < total) ∧
        (downloadBinaryStep isZip total got fs).2.final = some got ∧
        (isZip = false → (downloadBinaryStep isZip total got fs).2.tmp = none) ∧
        (isZip = true → (downloadBinaryStep isZip total got fs).2.tmpZip = none)) := by
  constructor
  · intro isZip total got fs h1 h2
    rw [downloadBinaryStep, downloadFile, if_pos ⟨h1, h2⟩]
  · intro isZip total got fs hok
    by_cases hv : 0 < total ∧ got < total
    · rw [downloadBinaryStep, downloadFile, if_pos hv] at hok
      simp at hok
    · refine ⟨hv, ?_, ?_, ?_⟩ <;>
        rw [downloadBinaryStep, downloadFile, if_neg hv] <;> cases isZip <;> simp

/-- Witness for `downloadBinary_atomic`: the spec scenario — declared
`Content-Length: 1000`, 999 bytes delivered — fails with the incomplete
error and leaves no `.tmp` and no final file. -/
theorem downloadBinary_atomic_witness :
    downloadBinaryStep false 1000 999 { tmp := none, tmpZip := none, final := none } =
      (Except.error (DlError.downloadIncomplete 999 1000),
       { tmp := none, tmpZip := none, final := none }) :=
  downloadBinary_atomic.1 false 1000 999 _ (by decide) (by decide)

end BinMgr

namespace Ytdlp

/-- C3 counterexample: with a subprocess (pid 1) already attached,
`download` does not reject — it spawns pid 2 and overwrites the stored
handle. -/
theorem download_no_reject_counterexample :
    downloadStart { proc := some 1, isPaused := false, nextPid := 2 } =
      DownloadStartResult.spawned { proc := some 2, isPaused := false, nextPid := 3 }
        [DAction.spawn 2] := by
  decide

/-- C3 (amended): `download` never rejects on account of an already
attached subprocess: even when one is attached it unconditionally spawns a
new subprocess, overwrites `this.process` with the new handle, and sends no
signal to the previously attached process. -/
theorem download_overwrites (s : DownloaderState) (p : ℕ) (_h : s.proc = some p) :
    downloadStart s =
      DownloadStartResult.spawned
        { proc := some s.nextPid, isPaused := s.isPaused, nextPid := s.nextPid + 1 }
        [DAction.spawn s.nextPid]
    ∧ (∀ msg, downloadStart s ≠ DownloadStartResult.rejected msg)
    ∧ (∀ sig, DAction.signal p sig ∉ [DAction.spawn s.nextPid]) := by
  refine ⟨rfl, ?_, ?_⟩
  · intro msg hmsg
    simp [downloadStart] at hmsg
  · intro sig
    simp

/-- Witness for `download_overwrites` at an attached state. -/
theorem download_overwrites_witness :
    downloadStart { proc := some 1, isPaused := false, nextPid := 2 } =
      DownloadStartResult.spawned { proc := some 2, isPaused := false, nextPid := 3 }
        [DAction.spawn 2]
    ∧ (∀ msg, downloadStart { proc := some 1, isPaused := false, nextPid := 2 } ≠
        DownloadStartResult.rejected msg)
    ∧ (∀ sig, DAction.signal 1 sig ∉ [DAction.spawn 2]) :=
  download_overwrites { proc := some 1, isPaused := false, nextPid := 2 } 1 rfl

/-- C6: `cancel` on an attached process sends SIGTERM, emits "cancelled",
detaches synchronously (so subsequent `pause`, `resume` and `cancel` are
no-ops) and schedules the forceful-kill timer for a 5000 ms grace period;
when that timer fires it sends SIGKILL at most once, and only if it was not
cleared by process exit and the liveness probe (which precedes the kill in
the action list) found the process alive. -/
theorem cancel_detaches (s : DownloaderState) (p : ℕ) (h : s.proc = some p) :
    cancel s = ({ proc := none, isPaused := false, nextPid := s.nextPid },
      [DAction.signal p Sig.sigterm, DAction.emit DEvent.evCancelled], some (p, 5000))
    ∧ pause { proc := none, isPaused := false, nextPid := s.nextPid } =
        ({ proc := none, isPaused := false, nextPid := s.nextPid }, [])
    ∧ resume { proc := none, isPaused := false, nextPid := s.nextPid } =
        ({ proc := none, isPaused := false, nextPid := s.nextPid }, [])
    ∧ cancel { proc := none, isPaused := false, nextPid := s.nextPid } =
        ({ proc := none, isPaused := false, nextPid := s.nextPid }, [], none)
    ∧ (∀ (pid : ℕ) (cleared alive : Bool),
        (killEscalationFire pid cleared alive).count (DAction.signal pid Sig.sigkill) ≤ 1
        ∧ (DAction.signal pid Sig.sigkill ∈ killEscalationFire pid cleared alive →
            killEscalationFire pid cleared alive =
              [DAction.probe pid, DAction.signal pid Sig.sigkill]
            ∧ cleared = false ∧ alive = true)) := by
  refine ⟨?_, rfl, rfl, rfl, ?_⟩
  · simp [cancel, h, GRACE_PERIOD_MS]
  · intro pid cleared alive
    by_cases hp : pid = 0 <;>
      cases cleared <;> cases alive <;>
        simp [killEscalationFire, hp, List.count_cons]

/-- Witness for `cancel_detaches` at a concrete attached state. -/
theorem cancel_detaches_witness :
    cancel { proc := some 3, isPaused := true, nextPid := 7 } =
      ({ proc := none, isPaused := false, nextPid := 7 },
       [DAction.signal 3 Sig.sigterm, DAction.emit DEvent.evCancelled], some (3, 5000))
    ∧ pause { proc := none, isPaused := false, nextPid := 7 } =
        ({ proc := none, isPaused := false, nextPid := 7 }, [])
    ∧ resume { proc := none, isPaused := false, nextPid := 7 } =
        ({ proc := none, isPaused := false, nextPid := 7 }, [])
    ∧ cancel { proc := none, isPaused := false, nextPid := 7 } =
        ({ proc := none, isPaused := false, nextPid := 7 }, [], none)
    ∧ (∀ (pid : ℕ) (cleared alive : Bool),
        (killEscalationFire pid cleared alive).count (DAction.signal pid Sig.sigkill) ≤ 1
        ∧ (DAction.signal pid Sig.sigkill ∈ killEscalationFire pid cleared alive →
            killEscalationFire pid cleared alive =
              [DAction.probe pid, DAction.signal pid Sig.sigkill]
            ∧ cleared = false ∧ alive = true)) := by
  have := cancel_detaches { proc := some 3, isPaused := true, nextPid := 7 } 3 rfl
  exact this

end Ytdlp

namespace BinMgr

/-- C7: an unknown model name fails with the unknown-model error before any
network request (empty request trace), unknown names are exactly those
outside the fixed enumeration, the error message lists the valid names, and
each name in the enumeration resolves to its one fixed URL. -/
theorem downloadWhisperModel_validation :
    (∀ (name : String) (total got : ℕ) (fs : ArtifactFs),
        WHISPER_MODEL_URLS name = none →
        downloadWhisperModelRun name total got fs =
          (Except.error (unknownModelMessage name), fs, []))
    ∧ (∀ name : String, WHISPER_MODEL_URLS name = none ↔ name ∉ WHISPER_MODEL_KEYS)
    ∧ unknownModelMessage "huge" =
        "Unknown whisper model: huge. Available: tiny, base, small, medium"
    ∧ WHISPER_MODEL_URLS "tiny" =
        some ("https://huggingface.co/ggerganov/whisper.cpp/resolve/main/ggml-tiny.bin")
    ∧ WHISPER_MODEL_URLS "base" =
        some ("https://huggingface.co/ggerganov/whisper.cpp/resolve/main/ggml-base.bin")
    ∧ WHISPER_MODEL_URLS "small" =
        some ("https://huggingface.co/ggerganov/whisper.cpp/resolve/main/ggml-small.bin")
    ∧ WHISPER_MODEL_URLS "medium" =
        some ("https://huggingface.co/ggerganov/whisper.cpp/resolve/main/ggml-medium.bin") := by
  refine ⟨?_, ?_, by decide, by decide, by decide, by decide, by decide⟩
  · intro name total got fs hurl
    simp [downloadWhisperModelRun, hurl]
  · intro name
    by_cases h1 : name = "tiny" <;> by_cases h2 : name = "base" <;>
      by_cases h3 : name = "small" <;> by_cases h4 : name = "medium" <;>
        simp [WHISPER_MODEL_URLS, WHISPER_MODEL_KEYS, h1, h2, h3, h4]

/-- Witness for `downloadWhisperModel_validation`: requesting model
`"huge"` fails immediately with zero network requests. -/
theorem downloadWhisperModel_validation_witness :
    downloadWhisperModelRun "huge" 5 5 { tmp := none, tmpZip := none, final := none } =
      (Except.error (unknownModelMessage "huge"),
       { tmp := none, tmpZip := none, final := none }, []) :=
  downloadWhisperModel_validation.1 "huge" 5 5 _ (by decide)

end BinMgr

namespace BinMgr

/-- C9: the aggregate status is ready exactly when the media fetcher
(yt-dlp) and the secondary runtime (deno) both exist with an execute
permission bit; the whisper and ffmpeg entries never affect readiness; and
`downloadAllBinaries` on a machine with no binaries performs exactly the
two downloads (fetcher then runtime), after which the status is ready. -/
theorem checkBinaryStatus_ready :
    (∀ st : BinDirState,
        ((checkBinaryStatus st).ready = true) ↔
          ((∃ m, st.ytdlp = some m ∧ m &&& 0o111 ≠ 0) ∧
           (∃ m, st.deno = some m ∧ m &&& 0o111 ≠ 0)))
    ∧ (∀ (st : BinDirState) (w f : Option ℕ),
        (checkBinaryStatus { st with whisper := w, ffmpeg := f }).ready =
          (checkBinaryStatus st).ready)
    ∧ (execConc (List.replicate 7 true) initialBm allBinariesThread []).trace =
        [Artifact.tool Tool.ytdlp, Artifact.tool Tool.deno]
    ∧ (checkBinaryStatus
        (execConc (List.replicate 7 true) initialBm allBinariesThread []).st.bins).ready =
        true := by
  refine ⟨?_, ?_, by decide, by decide⟩
  · intro st
    cases hy : st.ytdlp <;> cases hd : st.deno <;>
      simp [checkBinaryStatus, checkBinary, hy, hd, bne_iff_ne]
  · intro st w f
    rfl

/-- Witness for `checkBinaryStatus_ready`: readiness of a station with all
four binaries installed equals readiness with whisper and ffmpeg removed. -/
theorem checkBinaryStatus_ready_witness :
    (checkBinaryStatus
        { ytdlp := some 0o755, deno := some 0o755, whisper := some 0o755,
          ffmpeg := some 0o755 }).ready =
      (checkBinaryStatus
        { ytdlp := some 0o755, deno := some 0o755, whisper := none, ffmpeg := none }).ready :=
  checkBinaryStatus_ready.2.1
    { ytdlp := some 0o755, deno := some 0o755, whisper := none, ffmpeg := none }
    (some 0o755) (some 0o755)

end BinMgr

namespace Whisper

/-- C4 (evaluation at the failing input and on the surrounding exit paths):
for an `.m4a` source the format gate transcodes first; if the whisper
binary (or the model) is then found missing, `transcribe` rejects WITHOUT
deleting the intermediate wav (`tempWavOnDisk = true`), while the
successful, nonzero-exit, spawn-error and cancellation paths do delete
it. -/
theorem transcribe_temp_cleanup_eval :
    transcribe (TranscribeEnv.mk true (".m4a") true false true RunOutcome.exitZeroFound) =
      TranscribeOutcome.mk
        (Except.error ("Whisper binary not found. Please download it first.")) true
    ∧ transcribe (TranscribeEnv.mk true (".m4a") true true false RunOutcome.exitZeroFound) =
      TranscribeOutcome.mk
        (Except.error ("Whisper model not found. Please download it first.")) true
    ∧ transcribe (TranscribeEnv.mk true (".m4a") true true true RunOutcome.exitZeroFound) =
      TranscribeOutcome.mk (Except.ok ()) false
    ∧ transcribe (TranscribeEnv.mk true (".m4a") true true true RunOutcome.exitNonzero) =
      TranscribeOutcome.mk (Except.error ("Transcription failed")) false
    ∧ transcribe (TranscribeEnv.mk true (".m4a") true true true RunOutcome.spawnError) =
      TranscribeOutcome.mk (Except.error ("Process error")) false
    ∧ (Whisper.cancel (some 5) (some ("a.wav"))).2 = false := by
  exact ⟨rfl, rfl, rfl, rfl, rfl, rfl⟩

/-- C8: with no structured `progress = N%` token in the line, at least one
caption timestamp, and a known positive total duration, the emitted percent
is exactly `min 99 (round (elapsed / total * 100))` — never more than
99. -/
theorem parseProgress_timestamp (line : List Char) (d : ℚ) (hh mm ss : ℕ)
    (hstruct : findStruct line = none)
    (hlast : (scanTimestamps line).getLast? = some (hh, mm, ss))
    (hd : 0 < d) :
    parseProgress line d =
      some { percent := min 99 (jsRound (((hh * 3600 + mm * 60 + ss : ℕ) : ℚ) / d * 100)),
             currentTime := some (hh, mm, ss),
             totalTime := some (formatDuration d),
             phase := Phase.transcribing }
    ∧ (∀ ev, parseProgress line d = some ev → ev.percent ≤ 99) := by
  have h1 : parseProgress line d =
      some { percent := min 99 (jsRound (((hh * 3600 + mm * 60 + ss : ℕ) : ℚ) / d * 100)),
             currentTime := some (hh, mm, ss),
             totalTime := some (formatDuration d),
             phase := Phase.transcribing } := by
    simp only [parseProgress, hstruct, hlast]
    rw [if_pos hd]
  refine ⟨h1, ?_⟩
  intro ev hev
  rw [h1] at hev
  cases hev
  exact min_le_left _ _

/-- Witness for `parseProgress_timestamp`: the line
`"[00:01:40.000 --> 00:02:00.000]"` at total duration 200 s reports
`min 99 (round (100/200*100)) = 50` percent. -/
theorem parseProgress_timestamp_witness :
    parseProgress (("[00:01:40.000 --> 00:02:00.000]").toList) 200 =
      some { percent := min 99 (jsRound (((0 * 3600 + 1 * 60 + 40 : ℕ) : ℚ) / 200 * 100)),
             currentTime := some (0, 1, 40),
             totalTime := some (formatDuration 200),
             phase := Phase.transcribing }
    ∧ (∀ ev, parseProgress (("[00:01:40.000 --> 00:02:00.000]").toList) 200 = some ev →
        ev.percent ≤ 99) :=
  parseProgress_timestamp (("[00:01:40.000 --> 00:02:00.000]").toList) 200 0 1 40
    (by decide) (by decide) (by norm_num)

end Whisper

namespace BinMgr

theorem rset_closed :
    ∀ x ∈ RSet, xstep true x ∈ RSet ∧ xstep false x ∈ RSet := by decide

theorem rset_final :
    ∀ x ∈ RSet, x.t1 = [] → x.t2 = [] → x.cy = 1 ∧ x.cd = 1 := by decide

theorem x0_mem : x0 ∈ RSet := by decide

theorem countY_append (a b : List Artifact) : countY (a ++ b) = countY a + countY b := by
  simp [countY, List.count_append]

theorem countD_append (a b : List Artifact) : countD (a ++ b) = countD a + countD b := by
  simp [countD, List.count_append]

theorem execConc_cons_true (sched : List Bool) (st : BmConfig) (t1 t2 : List CStep) :
    execConc (true :: sched) st t1 t2 =
      { execConc sched (execStep st t1).1 (execStep st t1).2.1 t2 with
        trace := (execStep st t1).2.2 ++
          (execConc sched (execStep st t1).1 (execStep st t1).2.1 t2).trace } := rfl

theorem execConc_cons_false (sched : List Bool) (st : BmConfig) (t1 t2 : List CStep) :
    execConc (false :: sched) st t1 t2 =
      { execConc sched (execStep st t2).1 t1 (execStep st t2).2.1 with
        trace := (execStep st t2).2.2 ++
          (execConc sched (execStep st t2).1 t1 (execStep st t2).2.1).trace } := rfl

theorem xstep_true (x : XCfg) :
    xstep true x =
      XCfg.mk (execStep x.st x.t1).1 (execStep x.st x.t1).2.1 x.t2
        (x.cy + countY (execStep x.st x.t1).2.2) (x.cd + countD (execStep x.st x.t1).2.2) := rfl

theorem xstep_false (x : XCfg) :
    xstep false x =
      XCfg.mk (execStep x.st x.t2).1 x.t1 (execStep x.st x.t2).2.1
        (x.cy + countY (execStep x.st x.t2).2.2) (x.cd + countD (execStep x.st x.t2).2.2) := rfl

/-- Core invariant for the two-caller interleaving of
`downloadAllBinaries`: from any reachable counted configuration, every
schedule that runs both callers to completion ends with exactly one yt-dlp
and one deno download in total. -/
theorem conc_key : ∀ (sched : List Bool) (x : XCfg), x ∈ RSet →
    (execConc sched x.st x.t1 x.t2).t1 = [] →
    (execConc sched x.st x.t1 x.t2).t2 = [] →
    x.cy + countY (execConc sched x.st x.t1 x.t2).trace = 1 ∧
    x.cd + countD (execConc sched x.st x.t1 x.t2).trace = 1 := by
  intro sched
  induction sched with
  | nil =>
    intro x hx h1 h2
    simp only [execConc] at h1 h2 ⊢
    have := rset_final x hx h1 h2
    simp [countY, countD, this.1, this.2]
  | cons b sched ih =>
    intro x hx h1 h2
    cases b
    · have hx' := (rset_closed x hx).2
      rw [execConc_cons_false] at h1 h2 ⊢
      have := ih (xstep false x) hx'
      rw [xstep_false] at this
      simp only at this h1 h2 ⊢
      have h := this h1 h2
      rw [countY_append, countD_append]
      omega
    · have hx' := (rset_closed x hx).1
      rw [execConc_cons_true] at h1 h2 ⊢
      have := ih (xstep true x) hx'
      rw [xstep_true] at this
      simp only at this h1 h2 ⊢
      have h := this h1 h2
      rw [countY_append, countD_append]
      omega

/-- C1 counterexample: two concurrent `downloadWhisperModel("tiny")`
callers, the second arriving while the first download is in flight, perform
TWO network downloads of the same artifact — not the one the claim
requires (there is no per-artifact in-flight guard in the code). -/
theorem downloadWhisperModel_no_dedup_counterexample :
    ((execConc [true, false] initialBm (downloadWhisperModelThread ("tiny"))
        (downloadWhisperModelThread ("tiny"))).trace).count (Artifact.model ("tiny")) = 2 := by
  decide

/-- C1 (amended): the only deduplication is the single global
`downloadInProgress` promise of `downloadAllBinaries`: two concurrent
`downloadAllBinaries` callers on an empty machine perform exactly one
yt-dlp and one deno network download under EVERY schedule that completes
both callers; by contrast `downloadWhisperModel` has no guard at all, so
two concurrent callers for the same model name each perform a network
download. -/
theorem downloadAllBinaries_dedup :
    (∀ sched : List Bool,
        (execConc sched initialBm allBinariesThread allBinariesThread).t1 = [] →
        (execConc sched initialBm allBinariesThread allBinariesThread).t2 = [] →
        countY (execConc sched initialBm allBinariesThread allBinariesThread).trace = 1 ∧
        countD (execConc sched initialBm allBinariesThread allBinariesThread).trace = 1)
    ∧ (∀ name url, WHISPER_MODEL_URLS name = some url →
        ((execConc [true, false] initialBm (downloadWhisperModelThread name)
            (downloadWhisperModelThread name)).trace).count (Artifact.model name) = 2) := by
  constructor
  · intro sched h1 h2
    have := conc_key sched x0 x0_mem h1 h2
    simpa [x0] using this
  · intro name url h
    simp [downloadWhisperModelThread, h, execConc, execStep, List.count_cons]

/-- Witness for `downloadAllBinaries_dedup`: a concrete completing
schedule (caller 1 runs to completion, then caller 2) yields exactly one
download of each required tool, and two concurrent `"tiny"` model callers
yield two downloads. -/
theorem downloadAllBinaries_dedup_witness :
    (countY (execConc (List.replicate 7 true ++ List.replicate 3 false) initialBm
        allBinariesThread allBinariesThread).trace = 1 ∧
     countD (execConc (List.replicate 7 true ++ List.replicate 3 false) initialBm
        allBinariesThread allBinariesThread).trace = 1)
    ∧ ((execConc [true, false] initialBm (downloadWhisperModelThread ("tiny"))
        (downloadWhisperModelThread ("tiny"))).trace).count (Artifact.model ("tiny")) = 2 :=
  ⟨downloadAllBinaries_dedup.1 (List.replicate 7 true ++ List.replicate 3 false)
      (by decide) (by decide),
   downloadAllBinaries_dedup.2 ("tiny")
      ("https://huggingface.co/ggerganov/whisper.cpp/resolve/main/ggml-tiny.bin") (by decide)⟩

end BinMgr
